import Mathlib

/-!
Verification of the Tic Tac Toe backend game core.

This file gives a shallow embedding of the Python modules
`src/api/game_logic.py` (make_move, check_winner),
`src/api/store.py` (create_game, join_game) and the room data model of
`src/api/models.py`, and proves or refutes the specified properties of
the board logic, move application and reachable room states.

Board cells are the three values the data model allows for a cell:
the empty string, the mark "X" and the mark "O"; they are embedded as
the inductive type `Cell`, with `Cell.str` recovering the string the
Python code stores.  A board is a total function from coordinates
(`Fin 3 × Fin 3`) to cells.  Mutation of the Python `GameRoom` object is
embedded by explicit state passing: `make_move` returns the room as it
is left after the call (unchanged on every error path, exactly as the
source raises before any mutation) together with the `Except` outcome.
-/

inductive Cell where
  | empty : Cell
  | x : Cell
  | o : Cell
deriving DecidableEq, Repr

instance : Fintype Cell :=
  ⟨⟨{Cell.empty, Cell.x, Cell.o}, by decide⟩, by intro c; cases c <;> decide⟩

/-- The string the Python code stores for a cell value. -/
def Cell.str : Cell → String
  | Cell.empty => ""
  | Cell.x => "X"
  | Cell.o => "O"

abbrev Board := Fin 3 → Fin 3 → Cell

def emptyBoard : Board := fun _ _ => Cell.empty

/-- `board[r][c]` after the bounds have been checked (out of range reads
return `empty`; the embedded code only reads inside the guard `0 ≤ r < 3`,
`0 ≤ c < 3`, where the Python access cannot raise). -/
def boardGet (b : Board) (r c : Nat) : Cell :=
  if h : r < 3 ∧ c < 3 then b ⟨r, h.1⟩ ⟨c, h.2⟩ else Cell.empty

/-- `board[r][c] = v` (in-place in Python; functional update here). -/
def boardSet (b : Board) (r c : Nat) (v : Cell) : Board :=
  fun i j => if i.val = r ∧ j.val = c then v else b i j

/-- `UserPublic` of models.py (username + id). -/
structure UserPublic where
  username : String
  id : Nat
deriving DecidableEq, Repr

/-- One entry of `GameRoom.moves`: the dict
`{"player": username, "row": row, "col": col}` appended by make_move. -/
structure MoveEntry where
  player : String
  row : Int
  col : Int
deriving DecidableEq, Repr

/-- `GameRoom` of models.py.  `next_turn` is a plain string in the model
(not optional), `winner` is an optional string. -/
structure GameRoom where
  room_id : String
  players : List UserPublic
  board : Board
  next_turn : String
  finished : Bool
  winner : Option String
  moves : List MoveEntry

/-- `GameState` of models.py (the snapshot make_move returns). -/
structure GameState where
  board : Board
  next_turn : Option String
  winner : Option String
  finished : Bool

/-- The list `lines` built by check_winner, in the order the source
builds it: for i in 0,1,2 it appends row i then column i, then the main
diagonal, then the anti-diagonal. -/
def gameLines (b : Board) : List (List Cell) :=
  [[b 0 0, b 0 1, b 0 2],
   [b 0 0, b 1 0, b 2 0],
   [b 1 0, b 1 1, b 1 2],
   [b 0 1, b 1 1, b 2 1],
   [b 2 0, b 2 1, b 2 2],
   [b 0 2, b 1 2, b 2 2],
   [b 0 0, b 1 1, b 2 2],
   [b 0 2, b 1 1, b 2 0]]

/-- The scan `for l in lines: if l[0] and l.count(l[0]) == 3: return l[0]`:
first line whose leading cell is truthy (non-empty) and occurs three
times in the line. -/
def findWin : List (List Cell) → Option Cell
  | [] => none
  | [] :: rest => findWin rest
  | (c :: cs) :: rest =>
      if c ≠ Cell.empty ∧ (c :: cs).count c = 3 then some c else findWin rest

/-- `all(cell for row in board for cell in row)`: every cell truthy. -/
def boardAllOccupied (b : Board) : Bool :=
  ((List.finRange 3).flatMap fun i => (List.finRange 3).map fun j => b i j).all
    fun c => c != Cell.empty

/-- `check_winner(board)` of game_logic.py: returns
`(winner_symbol, finished)`. -/
def check_winner (b : Board) : Option Cell × Bool :=
  match findWin (gameLines b) with
  | some c => (some c, true)
  | none => if boardAllOccupied b then (none, true) else (none, false)

def defaultUser : UserPublic := { username := "", id := 0 }

/-- `make_move(game, username, row, col)` of game_logic.py.  The first
component of the result is the room object as the call leaves it (the
Python function mutates `game` in place only after all four validation
checks); the second component is the raised `ValueError` message or the
returned `GameState`. -/
def make_move (game : GameRoom) (username : String) (row col : Int) :
    GameRoom × Except String GameState :=
  if game.finished then (game, Except.error "Game already finished.")
  else if username ≠ game.next_turn then (game, Except.error "Not your turn.")
  else if ¬ (0 ≤ row ∧ row < 3 ∧ 0 ≤ col ∧ col < 3) then
    (game, Except.error "Invalid board position.")
  else if boardGet game.board row.toNat col.toNat ≠ Cell.empty then
    (game, Except.error "Cell already occupied.")
  else
    let symbol : Cell :=
      if username = (game.players.headD defaultUser).username then Cell.x else Cell.o
    let board2 := boardSet game.board row.toNat col.toNat symbol
    let moves2 := game.moves ++ [{ player := username, row := row, col := col }]
    let wf := check_winner board2
    let winner := wf.1
    let is_finished := wf.2
    if is_finished then
      let game2 : GameRoom :=
        { game with board := board2, moves := moves2,
                    finished := true, winner := winner.map Cell.str }
      (game2, Except.ok { board := board2, next_turn := none,
                          winner := winner.map Cell.str, finished := true })
    else
      let usernames := game.players.map UserPublic.username
      let nts := usernames.filter fun u => u != username
      let nt := nts.headD username
      let game2 : GameRoom :=
        { game with board := board2, moves := moves2,
                    next_turn := nt, winner := none }
      (game2, Except.ok { board := board2, next_turn := some nt,
                          winner := winner.map Cell.str, finished := false })

/-- `InMemoryStore.create_game` of store.py: fresh room with the creator
as sole player and first mover, empty board.  The opaque fresh room id
is a parameter. -/
def create_game (room_id : String) (user : UserPublic) : GameRoom :=
  { room_id := room_id, players := [user], board := emptyBoard,
    next_turn := user.username, finished := false, winner := none, moves := [] }

/-- `InMemoryStore.join_game` of store.py, applied to the room found
under the id (the room-lookup failure is store level). -/
def join_game (game : GameRoom) (player : UserPublic) : Except String GameRoom :=
  if 2 ≤ game.players.length then Except.error "Game already has two players"
  else if player.username ∈ game.players.map UserPublic.username then
    Except.error "Player already in game"
  else if game.finished then Except.error "Game already finished"
  else Except.ok { game with players := game.players ++ [player] }

/-- Room states reachable through create_game, then any sequence of
successful join_game and accepted make_move operations. -/
inductive Reachable : GameRoom → Prop where
  | create (room_id : String) (user : UserPublic) :
      Reachable (create_game room_id user)
  | join (g : GameRoom) (p : UserPublic) (g2 : GameRoom) :
      Reachable g → join_game g p = Except.ok g2 → Reachable g2
  | move (g : GameRoom) (u : String) (r c : Int) :
      Reachable g → ((make_move g u r c).2).isOk = true →
      Reachable (make_move g u r c).1

/-! ## Spec-side notions

`hasWinLine`, `boardFullSpec`, `countCell` and `specFirstWin` state, in
the words of the specification, what a winning line, a full board, a
mark count and the first winning line of the fixed scan order are; they
are compared against the embedded code. -/

/-- Mark `m` holds one of the 3 rows, 3 columns or 2 diagonals in all
three cells (a win line in the words of the spec; the empty cell value
is not a mark). -/
def hasWinLine (b : Board) (m : Cell) : Prop :=
  m ≠ Cell.empty ∧
    ((b 0 0 = m ∧ b 0 1 = m ∧ b 0 2 = m) ∨
     (b 1 0 = m ∧ b 1 1 = m ∧ b 1 2 = m) ∨
     (b 2 0 = m ∧ b 2 1 = m ∧ b 2 2 = m) ∨
     (b 0 0 = m ∧ b 1 0 = m ∧ b 2 0 = m) ∨
     (b 0 1 = m ∧ b 1 1 = m ∧ b 2 1 = m) ∨
     (b 0 2 = m ∧ b 1 2 = m ∧ b 2 2 = m) ∨
     (b 0 0 = m ∧ b 1 1 = m ∧ b 2 2 = m) ∨
     (b 0 2 = m ∧ b 1 1 = m ∧ b 2 0 = m))

instance (b : Board) (m : Cell) : Decidable (hasWinLine b m) := by
  unfold hasWinLine; infer_instance

/-- Every cell of the board is occupied (spec side). -/
def boardFullSpec (b : Board) : Prop := ∀ i j : Fin 3, b i j ≠ Cell.empty

instance (b : Board) : Decidable (boardFullSpec b) := by
  unfold boardFullSpec; infer_instance

/-- Number of cells of the board holding the given value. -/
def countCell (b : Board) (v : Cell) : Nat :=
  (Finset.univ.filter fun p : Fin 3 × Fin 3 => b p.1 p.2 = v).card

/-- Mark-A/Mark-B relabeling of a cell. -/
def swapCell : Cell → Cell
  | Cell.empty => Cell.empty
  | Cell.x => Cell.o
  | Cell.o => Cell.x

/-- Mark-A/Mark-B relabeling of a whole board. -/
def swapBoard (b : Board) : Board := fun i j => swapCell (b i j)

/-- Modelled from the claim: the fixed scan order
row 0, column 0, row 1, column 1, row 2, column 2, main diagonal,
anti-diagonal. -/
def specScanLines (b : Board) : List (List Cell) :=
  [[b 0 0, b 0 1, b 0 2],
   [b 0 0, b 1 0, b 2 0],
   [b 1 0, b 1 1, b 1 2],
   [b 0 1, b 1 1, b 2 1],
   [b 2 0, b 2 1, b 2 2],
   [b 0 2, b 1 2, b 2 2],
   [b 0 0, b 1 1, b 2 2],
   [b 0 2, b 1 1, b 2 0]]

/-- Modelled from the claim: a line is winning when its three cells all
hold one (non-empty) mark; the winner of such a line is that mark. -/
def specLineWinner : List Cell → Option Cell
  | [a, b, c] => if a ≠ Cell.empty ∧ a = b ∧ a = c then some a else none
  | _ => none

/-- Modelled from the claim: the mark of the first winning line in the
fixed scan order, if any line is winning. -/
def specFirstWin (b : Board) : Option Cell :=
  (specScanLines b).findSome? specLineWinner

/-! ## Characterization of the winner scan -/

theorem count_three_iff (a b c : Cell) :
    ([a, b, c].count a = 3) ↔ (a = b ∧ a = c) := by
  revert a b c; decide

theorem findWin_nil : findWin [] = none := rfl

theorem findWin_cons3 (a b c : Cell) (rest : List (List Cell)) :
    findWin ([a, b, c] :: rest) =
      if a ≠ Cell.empty ∧ a = b ∧ a = c then some a else findWin rest := by
  have hc := count_three_iff a b c
  show (if a ≠ Cell.empty ∧ [a, b, c].count a = 3 then some a else findWin rest) = _
  by_cases h : a ≠ Cell.empty ∧ a = b ∧ a = c
  · rw [if_pos ⟨h.1, hc.mpr h.2⟩, if_pos h]
  · rw [if_neg (fun hcon => h ⟨hcon.1, hc.mp hcon.2⟩), if_neg h]

/-- The winner scan of check_winner, unfolded over the eight lines in
their construction order. -/
theorem findWin_gameLines (b : Board) :
    findWin (gameLines b) =
      if b 0 0 ≠ Cell.empty ∧ b 0 0 = b 0 1 ∧ b 0 0 = b 0 2 then some (b 0 0)
      else if b 0 0 ≠ Cell.empty ∧ b 0 0 = b 1 0 ∧ b 0 0 = b 2 0 then some (b 0 0)
      else if b 1 0 ≠ Cell.empty ∧ b 1 0 = b 1 1 ∧ b 1 0 = b 1 2 then some (b 1 0)
      else if b 0 1 ≠ Cell.empty ∧ b 0 1 = b 1 1 ∧ b 0 1 = b 2 1 then some (b 0 1)
      else if b 2 0 ≠ Cell.empty ∧ b 2 0 = b 2 1 ∧ b 2 0 = b 2 2 then some (b 2 0)
      else if b 0 2 ≠ Cell.empty ∧ b 0 2 = b 1 2 ∧ b 0 2 = b 2 2 then some (b 0 2)
      else if b 0 0 ≠ Cell.empty ∧ b 0 0 = b 1 1 ∧ b 0 0 = b 2 2 then some (b 0 0)
      else if b 0 2 ≠ Cell.empty ∧ b 0 2 = b 1 1 ∧ b 0 2 = b 2 0 then some (b 0 2)
      else none := by
  simp only [gameLines, findWin_cons3, findWin_nil]

theorem check_winner_fst (b : Board) :
    (check_winner b).1 = findWin (gameLines b) := by
  unfold check_winner
  cases h : findWin (gameLines b)
  · simp only; split <;> rfl
  · rfl

theorem specLineWinner_triple (p q r : Cell) :
    specLineWinner [p, q, r] =
      if p ≠ Cell.empty ∧ p = q ∧ p = r then some p else none := rfl

theorem findSome?_specLineWinner_nil :
    List.findSome? specLineWinner [] = (none : Option Cell) := rfl

theorem findSome?_specLineWinner_cons (p q r : Cell) (rest : List (List Cell)) :
    List.findSome? specLineWinner ([p, q, r] :: rest) =
      if p ≠ Cell.empty ∧ p = q ∧ p = r then some p
      else List.findSome? specLineWinner rest := by
  rw [List.findSome?, specLineWinner_triple]
  by_cases h : p ≠ Cell.empty ∧ p = q ∧ p = r
  · simp only [if_pos h]
  · simp only [if_neg h]

/-- The spec-side first-winning-line scan, unfolded. -/
theorem specFirstWin_eq (b : Board) :
    specFirstWin b =
      if b 0 0 ≠ Cell.empty ∧ b 0 0 = b 0 1 ∧ b 0 0 = b 0 2 then some (b 0 0)
      else if b 0 0 ≠ Cell.empty ∧ b 0 0 = b 1 0 ∧ b 0 0 = b 2 0 then some (b 0 0)
      else if b 1 0 ≠ Cell.empty ∧ b 1 0 = b 1 1 ∧ b 1 0 = b 1 2 then some (b 1 0)
      else if b 0 1 ≠ Cell.empty ∧ b 0 1 = b 1 1 ∧ b 0 1 = b 2 1 then some (b 0 1)
      else if b 2 0 ≠ Cell.empty ∧ b 2 0 = b 2 1 ∧ b 2 0 = b 2 2 then some (b 2 0)
      else if b 0 2 ≠ Cell.empty ∧ b 0 2 = b 1 2 ∧ b 0 2 = b 2 2 then some (b 0 2)
      else if b 0 0 ≠ Cell.empty ∧ b 0 0 = b 1 1 ∧ b 0 0 = b 2 2 then some (b 0 0)
      else if b 0 2 ≠ Cell.empty ∧ b 0 2 = b 1 1 ∧ b 0 2 = b 2 0 then some (b 0 2)
      else none := by
  simp only [specFirstWin, specScanLines, findSome?_specLineWinner_cons,
    findSome?_specLineWinner_nil]

theorem swapCell_inj (a b : Cell) : swapCell a = swapCell b ↔ a = b := by
  revert a b; decide

theorem swapCell_ne_empty (a : Cell) : swapCell a ≠ Cell.empty ↔ a ≠ Cell.empty := by
  revert a; decide

theorem swapCell_bne_empty (a : Cell) : (swapCell a != Cell.empty) = (a != Cell.empty) := by
  revert a; decide

theorem findWin_swap (b : Board) :
    findWin (gameLines (swapBoard b)) = (findWin (gameLines b)).map swapCell := by
  rw [findWin_gameLines, findWin_gameLines]
  simp only [swapBoard, apply_ite (Option.map swapCell), swapCell_inj, swapCell_ne_empty]
  rfl

theorem boardAllOccupied_swap (b : Board) :
    boardAllOccupied (swapBoard b) = boardAllOccupied b := by
  unfold boardAllOccupied
  rw [show (List.finRange 3) = [(0 : Fin 3), 1, 2] from rfl]
  simp [swapBoard, swapCell_bne_empty]

/-- The fullness test of check_winner agrees with the spec-side notion. -/
theorem boardAllOccupied_iff (b : Board) :
    boardAllOccupied b = true ↔ boardFullSpec b := by
  unfold boardAllOccupied boardFullSpec
  rw [show (List.finRange 3) = [(0 : Fin 3), 1, 2] from rfl]
  constructor
  · intro hh i j
    refine bne_iff_ne.mp ?_
    refine List.all_eq_true.mp hh (b i j) ?_
    fin_cases i <;> fin_cases j <;> simp
  · intro h
    refine List.all_eq_true.mpr ?_
    intro c hc
    simp only [List.flatMap_cons, List.map_cons, List.map_nil, List.flatMap_nil,
      List.append_nil, List.mem_append, List.mem_cons, List.not_mem_nil, or_false] at hc
    rcases hc with (rfl | rfl | rfl) | (rfl | rfl | rfl) | (rfl | rfl | rfl) <;>
      exact bne_iff_ne.mpr (h _ _)

theorem findWin_some_hasWinLine (b : Board) (m : Cell)
    (h : findWin (gameLines b) = some m) : hasWinLine b m := by
  rw [findWin_gameLines] at h
  unfold hasWinLine
  split_ifs at h with h1 h2 h3 h4 h5 h6 h7 h8
  · cases h; exact ⟨h1.1, Or.inl ⟨rfl, h1.2.1.symm, h1.2.2.symm⟩⟩
  · cases h; exact ⟨h2.1, Or.inr (Or.inr (Or.inr (Or.inl ⟨rfl, h2.2.1.symm, h2.2.2.symm⟩)))⟩
  · cases h; exact ⟨h3.1, Or.inr (Or.inl ⟨rfl, h3.2.1.symm, h3.2.2.symm⟩)⟩
  · cases h; exact ⟨h4.1, Or.inr (Or.inr (Or.inr (Or.inr (Or.inl ⟨rfl, h4.2.1.symm, h4.2.2.symm⟩))))⟩
  · cases h; exact ⟨h5.1, Or.inr (Or.inr (Or.inl ⟨rfl, h5.2.1.symm, h5.2.2.symm⟩))⟩
  · cases h; exact ⟨h6.1, Or.inr (Or.inr (Or.inr (Or.inr (Or.inr (Or.inl ⟨rfl, h6.2.1.symm, h6.2.2.symm⟩)))))⟩
  · cases h; exact ⟨h7.1, Or.inr (Or.inr (Or.inr (Or.inr (Or.inr (Or.inr (Or.inl ⟨rfl, h7.2.1.symm, h7.2.2.symm⟩))))))⟩
  · cases h; exact ⟨h8.1, Or.inr (Or.inr (Or.inr (Or.inr (Or.inr (Or.inr (Or.inr ⟨rfl, h8.2.1.symm, h8.2.2.symm⟩))))))⟩

theorem findWin_none_not_hasWinLine (b : Board) (m : Cell)
    (h : findWin (gameLines b) = none) : ¬ hasWinLine b m := by
  rw [findWin_gameLines] at h
  intro hw
  obtain ⟨hm, hl⟩ := hw
  split_ifs at h with h1 h2 h3 h4 h5 h6 h7 h8
  rcases hl with ⟨e1, e2, e3⟩ | ⟨e1, e2, e3⟩ | ⟨e1, e2, e3⟩ | ⟨e1, e2, e3⟩ |
    ⟨e1, e2, e3⟩ | ⟨e1, e2, e3⟩ | ⟨e1, e2, e3⟩ | ⟨e1, e2, e3⟩
  · exact h1 ⟨by rw [e1]; exact hm, e1.trans e2.symm, e1.trans e3.symm⟩
  · exact h3 ⟨by rw [e1]; exact hm, e1.trans e2.symm, e1.trans e3.symm⟩
  · exact h5 ⟨by rw [e1]; exact hm, e1.trans e2.symm, e1.trans e3.symm⟩
  · exact h2 ⟨by rw [e1]; exact hm, e1.trans e2.symm, e1.trans e3.symm⟩
  · exact h4 ⟨by rw [e1]; exact hm, e1.trans e2.symm, e1.trans e3.symm⟩
  · exact h6 ⟨by rw [e1]; exact hm, e1.trans e2.symm, e1.trans e3.symm⟩
  · exact h7 ⟨by rw [e1]; exact hm, e1.trans e2.symm, e1.trans e3.symm⟩
  · exact h8 ⟨by rw [e1]; exact hm, e1.trans e2.symm, e1.trans e3.symm⟩

/-! ## Branch lemmas for make_move -/

theorem make_move_finished_error (g : GameRoom) (u : String) (r c : Int)
    (hf : g.finished = true) :
    make_move g u r c = (g, Except.error "Game already finished.") := by
  unfold make_move; rw [if_pos hf]

theorem make_move_turn_error (g : GameRoom) (u : String) (r c : Int)
    (hf : g.finished = false) (ht : u ≠ g.next_turn) :
    make_move g u r c = (g, Except.error "Not your turn.") := by
  unfold make_move
  rw [if_neg (by simp [hf]), if_pos ht]

theorem make_move_bounds_error (g : GameRoom) (u : String) (r c : Int)
    (hf : g.finished = false) (ht : u = g.next_turn)
    (hb : ¬ (0 ≤ r ∧ r < 3 ∧ 0 ≤ c ∧ c < 3)) :
    make_move g u r c = (g, Except.error "Invalid board position.") := by
  unfold make_move
  rw [if_neg (by simp [hf]), if_neg (by simp [ht]), if_pos hb]

theorem make_move_occupied_error (g : GameRoom) (u : String) (r c : Int)
    (hf : g.finished = false) (ht : u = g.next_turn)
    (hb : 0 ≤ r ∧ r < 3 ∧ 0 ≤ c ∧ c < 3)
    (ho : boardGet g.board r.toNat c.toNat ≠ Cell.empty) :
    make_move g u r c = (g, Except.error "Cell already occupied.") := by
  unfold make_move
  rw [if_neg (by simp [hf]), if_neg (by simp [ht]), if_neg (by simp [hb]), if_pos ho]

/-- An accepted move, written out: all four checks pass and the updated
room and returned state are as the source builds them. -/
theorem make_move_apply (g : GameRoom) (u : String) (r c : Int)
    (hf : g.finished = false) (ht : u = g.next_turn)
    (hb : 0 ≤ r ∧ r < 3 ∧ 0 ≤ c ∧ c < 3)
    (ho : boardGet g.board r.toNat c.toNat = Cell.empty) :
    make_move g u r c =
      (let symbol : Cell :=
        if u = (g.players.headD defaultUser).username then Cell.x else Cell.o
       let board2 := boardSet g.board r.toNat c.toNat symbol
       let moves2 := g.moves ++ [{ player := u, row := r, col := c }]
       let wf := check_winner board2
       let winner := wf.1
       let is_finished := wf.2
       if is_finished then
         ({ g with board := board2, moves := moves2,
                   finished := true, winner := winner.map Cell.str },
          Except.ok { board := board2, next_turn := none,
                      winner := winner.map Cell.str, finished := true })
       else
         let usernames := g.players.map UserPublic.username
         let nts := usernames.filter fun s => s != u
         let nt := nts.headD u
         ({ g with board := board2, moves := moves2,
                   next_turn := nt, winner := none },
          Except.ok { board := board2, next_turn := some nt,
                      winner := winner.map Cell.str, finished := false })) := by
  unfold make_move
  rw [if_neg (by simp [hf]), if_neg (by simp [ht]), if_neg (by simp [hb]),
    if_neg (by simp [ho])]

/-- An accepted move passed all four validation checks. -/
theorem make_move_ok_conditions (g : GameRoom) (u : String) (r c : Int)
    (h : ((make_move g u r c).2).isOk = true) :
    g.finished = false ∧ u = g.next_turn ∧
    (0 ≤ r ∧ r < 3 ∧ 0 ≤ c ∧ c < 3) ∧
    boardGet g.board r.toNat c.toNat = Cell.empty := by
  by_cases hf : g.finished = true
  · rw [make_move_finished_error g u r c hf] at h
    simp [Except.isOk, Except.toBool] at h
  have hf2 : g.finished = false := by simp at hf; exact hf
  by_cases ht : u = g.next_turn
  on_goal 2 =>
    rw [make_move_turn_error g u r c hf2 ht] at h
    simp [Except.isOk, Except.toBool] at h
  by_cases hb : 0 ≤ r ∧ r < 3 ∧ 0 ≤ c ∧ c < 3
  on_goal 2 =>
    rw [make_move_bounds_error g u r c hf2 ht hb] at h
    simp [Except.isOk, Except.toBool] at h
  by_cases ho : boardGet g.board r.toNat c.toNat = Cell.empty
  on_goal 2 =>
    rw [make_move_occupied_error g u r c hf2 ht hb ho] at h
    simp [Except.isOk, Except.toBool] at h
  exact ⟨hf2, ht, hb, ho⟩

/-! ## Counting marks under a single-cell update -/

theorem countCell_boardSet_self (b : Board) (r c : Nat) (v : Cell)
    (hr : r < 3) (hc : c < 3) (h : b ⟨r, hr⟩ ⟨c, hc⟩ ≠ v) :
    countCell (boardSet b r c v) v = countCell b v + 1 := by
  unfold countCell
  have key : (Finset.univ.filter fun p : Fin 3 × Fin 3 =>
      boardSet b r c v p.1 p.2 = v) =
      insert (⟨⟨r, hr⟩, ⟨c, hc⟩⟩ : Fin 3 × Fin 3)
        (Finset.univ.filter fun p : Fin 3 × Fin 3 => b p.1 p.2 = v) := by
    ext p
    simp only [Finset.mem_filter, Finset.mem_univ, true_and, Finset.mem_insert, boardSet]
    constructor
    · intro hp
      by_cases hpq : p.1.val = r ∧ p.2.val = c
      · exact Or.inl (Prod.ext (Fin.ext hpq.1) (Fin.ext hpq.2))
      · exact Or.inr (by rwa [if_neg hpq] at hp)
    · rintro (rfl | hp)
      · simp
      · by_cases hpq : p.1.val = r ∧ p.2.val = c
        · exfalso
          have e1 : p.1 = ⟨r, hr⟩ := Fin.ext hpq.1
          have e2 : p.2 = ⟨c, hc⟩ := Fin.ext hpq.2
          rw [e1, e2] at hp
          exact h hp
        · rwa [if_neg hpq]
  rw [key, Finset.card_insert_of_not_mem]
  simp only [Finset.mem_filter, Finset.mem_univ, true_and]
  exact h

theorem countCell_boardSet_other (b : Board) (r c : Nat) (v w : Cell)
    (hr : r < 3) (hc : c < 3) (hvw : v ≠ w) (h : b ⟨r, hr⟩ ⟨c, hc⟩ ≠ w) :
    countCell (boardSet b r c v) w = countCell b w := by
  unfold countCell
  congr 1
  apply Finset.filter_congr
  intro p _
  simp only [boardSet]
  by_cases hpq : p.1.val = r ∧ p.2.val = c
  · rw [if_pos hpq]
    have e1 : p.1 = ⟨r, hr⟩ := Fin.ext hpq.1
    have e2 : p.2 = ⟨c, hc⟩ := Fin.ext hpq.2
    rw [e1, e2]
    exact iff_of_false hvw h
  · rw [if_neg hpq]

theorem make_move_apply_finished (g : GameRoom) (u : String) (r c : Int)
    (hf : g.finished = false) (ht : u = g.next_turn)
    (hb : 0 ≤ r ∧ r < 3 ∧ 0 ≤ c ∧ c < 3)
    (ho : boardGet g.board r.toNat c.toNat = Cell.empty)
    (hcw : (check_winner (boardSet g.board r.toNat c.toNat
      (if u = (g.players.headD defaultUser).username then Cell.x else Cell.o))).2 = true) :
    (make_move g u r c).1 =
      { g with
          board := boardSet g.board r.toNat c.toNat
            (if u = (g.players.headD defaultUser).username then Cell.x else Cell.o),
          moves := g.moves ++ [{ player := u, row := r, col := c }],
          finished := true,
          winner := ((check_winner (boardSet g.board r.toNat c.toNat
            (if u = (g.players.headD defaultUser).username then Cell.x
             else Cell.o))).1).map Cell.str } := by
  unfold make_move
  rw [if_neg (by simp [hf]), if_neg (by simp [ht]), if_neg (by simp [hb]),
    if_neg (by simp [ho])]
  simp only [hcw, if_true]

theorem make_move_apply_continue (g : GameRoom) (u : String) (r c : Int)
    (hf : g.finished = false) (ht : u = g.next_turn)
    (hb : 0 ≤ r ∧ r < 3 ∧ 0 ≤ c ∧ c < 3)
    (ho : boardGet g.board r.toNat c.toNat = Cell.empty)
    (hcw : (check_winner (boardSet g.board r.toNat c.toNat
      (if u = (g.players.headD defaultUser).username then Cell.x else Cell.o))).2 = false) :
    (make_move g u r c).1 =
      { g with
          board := boardSet g.board r.toNat c.toNat
            (if u = (g.players.headD defaultUser).username then Cell.x else Cell.o),
          moves := g.moves ++ [{ player := u, row := r, col := c }],
          next_turn := ((g.players.map UserPublic.username).filter
            fun s => s != u).headD u,
          winner := none } := by
  unfold make_move
  rw [if_neg (by simp [hf]), if_neg (by simp [ht]), if_neg (by simp [hb]),
    if_neg (by simp [ho])]
  simp only [hcw, if_false, Bool.false_eq_true]

theorem boardGet_eq (b : Board) (r c : Nat) (hr : r < 3) (hc : c < 3) :
    boardGet b r c = b ⟨r, hr⟩ ⟨c, hc⟩ := by
  unfold boardGet
  rw [dif_pos ⟨hr, hc⟩]

theorem filter_pair_left (s t : String) (hst : s ≠ t) :
    (([s, t] : List String).filter fun z => z != s) = [t] := by
  have h1 : (t != s) = true := bne_iff_ne.mpr (Ne.symm hst)
  simp [List.filter, h1]

theorem filter_pair_right (s t : String) (hst : s ≠ t) :
    (([s, t] : List String).filter fun z => z != t) = [s] := by
  have h1 : (s != t) = true := bne_iff_ne.mpr hst
  simp [List.filter, h1]

/-! ## Two-player reachability -/

/-- Room states reachable when the second player joins before any move:
create_game, one successful join_game, then accepted make_move calls. -/
inductive ReachableTwo : GameRoom → Prop where
  | start (room_id : String) (a b : UserPublic) (g : GameRoom) :
      join_game (create_game room_id a) b = Except.ok g → ReachableTwo g
  | move (g : GameRoom) (u : String) (r c : Int) :
      ReachableTwo g → ((make_move g u r c).2).isOk = true →
      ReachableTwo (make_move g u r c).1

/-- Inductive invariant of two-player play: the players are distinct,
the creator (first listed, holder of mark X) moved first, and the mark
counts track whose turn it is (once finished, who moved last). -/
def roomInv (g : GameRoom) : Prop :=
  ∃ pa pb : UserPublic, g.players = [pa, pb] ∧ pa.username ≠ pb.username ∧
    ((g.finished = false ∧ g.next_turn = pa.username ∧
        countCell g.board Cell.x = countCell g.board Cell.o) ∨
     (g.finished = false ∧ g.next_turn = pb.username ∧
        countCell g.board Cell.x = countCell g.board Cell.o + 1) ∨
     (g.finished = true ∧ g.next_turn = pa.username ∧
        countCell g.board Cell.x = countCell g.board Cell.o + 1) ∨
     (g.finished = true ∧ g.next_turn = pb.username ∧
        countCell g.board Cell.x = countCell g.board Cell.o))

theorem roomInv_start (room_id : String) (a b : UserPublic) (g : GameRoom)
    (h : join_game (create_game room_id a) b = Except.ok g) : roomInv g := by
  unfold join_game create_game at h
  by_cases hab : b.username = a.username
  · rw [if_neg (by simp), if_pos (by simp [hab])] at h
    simp at h
  · rw [if_neg (by simp), if_neg (by simp [hab]), if_neg (by simp)] at h
    obtain rfl : _ = g := (Except.ok.inj h)
    exact ⟨a, b, rfl, fun he => hab he.symm,
      Or.inl ⟨rfl, rfl,
        (by decide : countCell emptyBoard Cell.x = countCell emptyBoard Cell.o)⟩⟩

theorem roomInv_move (g : GameRoom) (u : String) (r c : Int)
    (hInv : roomInv g) (h : ((make_move g u r c).2).isOk = true) :
    roomInv (make_move g u r c).1 := by
  obtain ⟨pa, pb, hpl, hne, hcase⟩ := hInv
  obtain ⟨hf, ht, hb, ho⟩ := make_move_ok_conditions g u r c h
  have hr3 : r.toNat < 3 := by omega
  have hc3 : c.toNat < 3 := by omega
  have hcell : g.board ⟨r.toNat, hr3⟩ ⟨c.toNat, hc3⟩ = Cell.empty := by
    rw [← boardGet_eq g.board r.toNat c.toNat hr3 hc3]; exact ho
  have hhead : (g.players.headD defaultUser).username = pa.username := by
    rw [hpl]; rfl
  rcases hcase with ⟨hgf, hnt, hcnt⟩ | ⟨hgf, hnt, hcnt⟩ | ⟨hgf, -, -⟩ | ⟨hgf, -, -⟩
  · -- pa (mark X) to move
    have hu : u = pa.username := ht.trans hnt
    have hsym : (if u = (g.players.headD defaultUser).username
        then Cell.x else Cell.o) = Cell.x := by
      rw [hhead, if_pos hu]
    have hX : countCell (boardSet g.board r.toNat c.toNat Cell.x) Cell.x
        = countCell g.board Cell.x + 1 :=
      countCell_boardSet_self _ _ _ _ hr3 hc3 (by rw [hcell]; decide)
    have hO : countCell (boardSet g.board r.toNat c.toNat Cell.x) Cell.o
        = countCell g.board Cell.o :=
      countCell_boardSet_other _ _ _ _ _ hr3 hc3 (by decide) (by rw [hcell]; decide)
    cases hcw : (check_winner (boardSet g.board r.toNat c.toNat
        (if u = (g.players.headD defaultUser).username then Cell.x else Cell.o))).2
    · rw [make_move_apply_continue g u r c hf ht hb ho hcw]
      refine ⟨pa, pb, hpl, hne, Or.inr (Or.inl ⟨hgf, ?_, ?_⟩)⟩
      · show ((g.players.map UserPublic.username).filter
            fun s => s != u).headD u = pb.username
        rw [hpl, hu]
        simp only [List.map_cons, List.map_nil]
        rw [filter_pair_left pa.username pb.username hne]
        rfl
      · show countCell (boardSet g.board r.toNat c.toNat
            (if u = (g.players.headD defaultUser).username
             then Cell.x else Cell.o)) Cell.x = _ + 1
        rw [hsym, hX, hO, hcnt]
    · rw [make_move_apply_finished g u r c hf ht hb ho hcw]
      refine ⟨pa, pb, hpl, hne, Or.inr (Or.inr (Or.inl ⟨rfl, hnt, ?_⟩))⟩
      show countCell (boardSet g.board r.toNat c.toNat
          (if u = (g.players.headD defaultUser).username
           then Cell.x else Cell.o)) Cell.x = _ + 1
      rw [hsym, hX, hO, hcnt]
  · -- pb (mark O) to move
    have hu : u = pb.username := ht.trans hnt
    have hsym : (if u = (g.players.headD defaultUser).username
        then Cell.x else Cell.o) = Cell.o := by
      rw [hhead, if_neg (fun he => hne (he.symm.trans hu))]
    have hX : countCell (boardSet g.board r.toNat c.toNat Cell.o) Cell.x
        = countCell g.board Cell.x :=
      countCell_boardSet_other _ _ _ _ _ hr3 hc3 (by decide) (by rw [hcell]; decide)
    have hO : countCell (boardSet g.board r.toNat c.toNat Cell.o) Cell.o
        = countCell g.board Cell.o + 1 :=
      countCell_boardSet_self _ _ _ _ hr3 hc3 (by rw [hcell]; decide)
    cases hcw : (check_winner (boardSet g.board r.toNat c.toNat
        (if u = (g.players.headD defaultUser).username then Cell.x else Cell.o))).2
    · rw [make_move_apply_continue g u r c hf ht hb ho hcw]
      refine ⟨pa, pb, hpl, hne, Or.inl ⟨hgf, ?_, ?_⟩⟩
      · show ((g.players.map UserPublic.username).filter
            fun s => s != u).headD u = pa.username
        rw [hpl, hu]
        simp only [List.map_cons, List.map_nil]
        rw [filter_pair_right pa.username pb.username hne]
        rfl
      · show countCell (boardSet g.board r.toNat c.toNat
            (if u = (g.players.headD defaultUser).username
             then Cell.x else Cell.o)) Cell.x = _
        rw [hsym, hX, hO, hcnt]
    · rw [make_move_apply_finished g u r c hf ht hb ho hcw]
      refine ⟨pa, pb, hpl, hne, Or.inr (Or.inr (Or.inr ⟨rfl, hnt, ?_⟩))⟩
      show countCell (boardSet g.board r.toNat c.toNat
          (if u = (g.players.headD defaultUser).username
           then Cell.x else Cell.o)) Cell.x = _
      rw [hsym, hX, hO, hcnt]
  · rw [hf] at hgf; cases hgf
  · rw [hf] at hgf; cases hgf

theorem roomInv_of_reachableTwo (g : GameRoom) (h : ReachableTwo g) : roomInv g := by
  induction h with
  | start rid a b g hj => exact roomInv_start rid a b g hj
  | move g u r c hg hok ih => exact roomInv_move g u r c ih hok

/-! ## Further board update lemmas -/

theorem boardGet_boardSet_self (b : Board) (r c : Nat) (v : Cell)
    (hr : r < 3) (hc : c < 3) : boardGet (boardSet b r c v) r c = v := by
  rw [boardGet_eq _ _ _ hr hc]
  unfold boardSet
  rw [if_pos ⟨rfl, rfl⟩]

theorem boardSet_ne (b : Board) (r c : Nat) (v : Cell) (i j : Fin 3)
    (hij : ¬ (i.val = r ∧ j.val = c)) : boardSet b r c v i j = b i j := by
  unfold boardSet
  rw [if_neg hij]

theorem make_move_apply_isOk (g : GameRoom) (u : String) (r c : Int)
    (hf : g.finished = false) (ht : u = g.next_turn)
    (hb : 0 ≤ r ∧ r < 3 ∧ 0 ≤ c ∧ c < 3)
    (ho : boardGet g.board r.toNat c.toNat = Cell.empty) :
    ((make_move g u r c).2).isOk = true := by
  rw [make_move_apply g u r c hf ht hb ho]
  by_cases hcw : (check_winner (boardSet g.board r.toNat c.toNat
      (if u = (g.players.headD defaultUser).username then Cell.x else Cell.o))).2 = true
  · simp only [hcw, if_true]
    rfl
  · simp only [Bool.not_eq_true] at hcw
    simp only [hcw, Bool.false_eq_true, if_false]
    rfl

theorem except_isOk_exists {ε α : Type} (e : Except ε α) (h : e.isOk = true) :
    ∃ a, e = Except.ok a := by
  cases e with
  | error s => simp [Except.isOk, Except.toBool] at h
  | ok a => exact ⟨a, rfl⟩

/-! ## Concrete rooms and traces -/

def uAlice : UserPublic := { username := "alice", id := 1 }

def uBob : UserPublic := { username := "bob", id := 2 }

/-- Two-player game: alice creates, bob joins, alice wins the top row
with moves alice (0,0), bob (1,0), alice (0,1), bob (1,1), alice (0,2). -/
def g0 : GameRoom := create_game "room1" uAlice

def g1 : GameRoom := { g0 with players := [uAlice, uBob] }

def g2 : GameRoom := (make_move g1 "alice" 0 0).1

def g3 : GameRoom := (make_move g2 "bob" 1 0).1

def g4 : GameRoom := (make_move g3 "alice" 0 1).1

def g5 : GameRoom := (make_move g4 "bob" 1 1).1

def g6 : GameRoom := (make_move g5 "alice" 0 2).1

theorem join_g0 : join_game g0 uBob = Except.ok g1 := by
  unfold join_game
  rw [if_neg (by decide), if_neg (by decide), if_neg (by decide)]
  rfl

theorem reach_g1 : Reachable g1 :=
  Reachable.join g0 uBob g1 (Reachable.create "room1" uAlice) join_g0

theorem reach_g6 : Reachable g6 :=
  Reachable.move g5 "alice" 0 2
    (Reachable.move g4 "bob" 1 1
      (Reachable.move g3 "alice" 0 1
        (Reachable.move g2 "bob" 1 0
          (Reachable.move g1 "alice" 0 0 reach_g1 (by decide))
          (by decide))
        (by decide))
      (by decide))
    (by decide)

/-- Solo game: alice creates a room and, with no second player yet,
moves twice in a row (the degenerate single-player turn rule keeps the
turn with her). -/
def s0 : GameRoom := create_game "solo" uAlice

def s1 : GameRoom := (make_move s0 "alice" 0 0).1

def s2 : GameRoom := (make_move s1 "alice" 0 1).1

theorem reach_s2 : Reachable s2 :=
  Reachable.move s1 "alice" 0 1
    (Reachable.move s0 "alice" 0 0 (Reachable.create "solo" uAlice) (by decide))
    (by decide)

/-- A board on which both marks complete a line (row 0 all X, row 1 all
O): an input outside the legal-play contract. -/
def doubleWinBoard : Board := fun i _ =>
  if i.val = 0 then Cell.x else if i.val = 1 then Cell.o else Cell.empty

/-! ## The claims -/

/-- C1: the spec requires that a room's winner, when present, is the
user identifier of one of the participants.  The code violates this: a
reachable finished room (alice and bob, alice wins the top row) stores
the mark symbol "X" as winner, which is not the username of any
participant — `check_winner` returns the symbol and `make_move` stores
it unchanged, although the model documents the field as the winner's
username. -/
theorem c1_winner_is_mark_symbol_not_participant :
    Reachable g6 ∧ g6.finished = true ∧ g6.winner = some "X" ∧
    g6.players.map UserPublic.username = ["alice", "bob"] ∧
    (∀ p ∈ g6.players, g6.winner ≠ some p.username) :=
  ⟨reach_g6, by decide, by decide, by decide, by decide⟩

/-- C2: the spec requires a terminal move to clear the room's next_turn
so a finished room has no next mover.  The code sets a dead local
variable instead of the room field: in the reachable finished room g6
(alice just completed the top row) the room still records the mover
"alice" as next_turn. -/
theorem c2_finished_room_next_turn_not_cleared :
    Reachable g6 ∧ g6.finished = true ∧ g6.next_turn = "alice" ∧
    g6.moves.getLast? = some { player := "alice", row := 0, col := 2 } :=
  ⟨reach_g6, by decide, by decide, by decide⟩

/-- C3: make_move checks, in this order, finished room, out of turn,
out of bounds, occupied cell, failing with the corresponding error, and
succeeds in every remaining case. -/
theorem c3_make_move_error_order (g : GameRoom) (u : String) (r c : Int) :
    (g.finished = true →
      make_move g u r c = (g, Except.error "Game already finished.")) ∧
    (g.finished = false → u ≠ g.next_turn →
      make_move g u r c = (g, Except.error "Not your turn.")) ∧
    (g.finished = false → u = g.next_turn →
      ¬ (0 ≤ r ∧ r < 3 ∧ 0 ≤ c ∧ c < 3) →
      make_move g u r c = (g, Except.error "Invalid board position.")) ∧
    (g.finished = false → u = g.next_turn →
      (0 ≤ r ∧ r < 3 ∧ 0 ≤ c ∧ c < 3) →
      boardGet g.board r.toNat c.toNat ≠ Cell.empty →
      make_move g u r c = (g, Except.error "Cell already occupied.")) ∧
    (g.finished = false → u = g.next_turn →
      (0 ≤ r ∧ r < 3 ∧ 0 ≤ c ∧ c < 3) →
      boardGet g.board r.toNat c.toNat = Cell.empty →
      ∃ st : GameState, (make_move g u r c).2 = Except.ok st) :=
  ⟨make_move_finished_error g u r c,
   make_move_turn_error g u r c,
   make_move_bounds_error g u r c,
   make_move_occupied_error g u r c,
   fun hf ht hb ho => except_isOk_exists _ (make_move_apply_isOk g u r c hf ht hb ho)⟩

/-- Witness for C3 at concrete rooms: each of the four errors occurs,
and a legal move succeeds. -/
theorem c3_make_move_error_order_witness :
    make_move g6 "alice" 0 0 = (g6, Except.error "Game already finished.") ∧
    make_move g1 "bob" 0 0 = (g1, Except.error "Not your turn.") ∧
    make_move g1 "alice" 3 1 = (g1, Except.error "Invalid board position.") ∧
    make_move g2 "bob" 0 0 = (g2, Except.error "Cell already occupied.") ∧
    ∃ st : GameState, (make_move g1 "alice" 1 2).2 = Except.ok st :=
  ⟨(c3_make_move_error_order g6 "alice" 0 0).1 (by decide),
   (c3_make_move_error_order g1 "bob" 0 0).2.1 (by decide) (by decide),
   (c3_make_move_error_order g1 "alice" 3 1).2.2.1 (by decide) (by decide) (by decide),
   (c3_make_move_error_order g2 "bob" 0 0).2.2.2.1
     (by decide) (by decide) (by decide) (by decide),
   (c3_make_move_error_order g1 "alice" 1 2).2.2.2.2
     (by decide) (by decide) (by decide) (by decide)⟩

/-- C4: a rejected move leaves the room exactly as it was: the source
raises before any mutation, so the room state after a failed call is
the original room (board, players, next_turn, finished, winner and move
log included). -/
theorem c4_failed_move_leaves_room_unchanged (g : GameRoom) (u : String)
    (r c : Int) (e : String)
    (h : (make_move g u r c).2 = Except.error e) : (make_move g u r c).1 = g := by
  by_cases hf : g.finished = true
  · rw [make_move_finished_error g u r c hf]
  · have hf2 : g.finished = false := by simp only [Bool.not_eq_true] at hf; exact hf
    by_cases ht : u = g.next_turn
    · by_cases hb : 0 ≤ r ∧ r < 3 ∧ 0 ≤ c ∧ c < 3
      · by_cases ho : boardGet g.board r.toNat c.toNat = Cell.empty
        · have hok := make_move_apply_isOk g u r c hf2 ht hb ho
          rw [h] at hok
          simp [Except.isOk, Except.toBool] at hok
        · rw [make_move_occupied_error g u r c hf2 ht hb ho]
      · rw [make_move_bounds_error g u r c hf2 ht hb]
    · rw [make_move_turn_error g u r c hf2 ht]

/-- Witness for C4: a move on a finished room fails and the room is
returned unchanged. -/
theorem c4_failed_move_leaves_room_unchanged_witness :
    (make_move g6 "alice" 0 0).1 = g6 :=
  c4_failed_move_leaves_room_unchanged g6 "alice" 0 0 "Game already finished." rfl

/-- Counterexample for C5 as stated: with only join_game and accepted
make_move operations from create_game, a room with a single player is
reachable in which alice has moved twice in a row (the turn never
leaves a solo player), so the board holds two X marks and no O mark —
the counts differ by 2. -/
theorem c5_counterexample_solo_player_counts :
    Reachable s2 ∧ countCell s2.board Cell.x = 2 ∧ countCell s2.board Cell.o = 0 :=
  ⟨reach_s2, by decide, by decide⟩

/-- C5 (amended): for rooms whose second player joined before any move
was made, after any sequence of accepted moves the two mark counts
differ by at most 1 and X (the creator's mark) never trails O. -/
theorem c5_two_player_mark_counts (g : GameRoom) (h : ReachableTwo g) :
    countCell g.board Cell.o ≤ countCell g.board Cell.x ∧
    countCell g.board Cell.x ≤ countCell g.board Cell.o + 1 := by
  obtain ⟨pa, pb, -, -, hcase⟩ := roomInv_of_reachableTwo g h
  rcases hcase with ⟨-, -, hc⟩ | ⟨-, -, hc⟩ | ⟨-, -, hc⟩ | ⟨-, -, hc⟩ <;> omega

/-- Witness for C5 (amended) on the five-move game g6. -/
theorem c5_two_player_mark_counts_witness :
    countCell g6.board Cell.o ≤ countCell g6.board Cell.x ∧
    countCell g6.board Cell.x ≤ countCell g6.board Cell.o + 1 :=
  c5_two_player_mark_counts g6
    (ReachableTwo.move g5 "alice" 0 2
      (ReachableTwo.move g4 "bob" 1 1
        (ReachableTwo.move g3 "alice" 0 1
          (ReachableTwo.move g2 "bob" 1 0
            (ReachableTwo.move g1 "alice" 0 0
              (ReachableTwo.start "room1" uAlice uBob g1 join_g0)
              (by decide))
            (by decide))
          (by decide))
        (by decide))
      (by decide))

/-- Counterexample for C6 as stated: on the (contract-violating) board
with row 0 all X and row 1 all O, mark O holds a complete line but
check_winner reports the win for X, so "returns a win for a mark
exactly when a line holds that mark" fails for O. -/
theorem c6_counterexample_double_win_board :
    hasWinLine doubleWinBoard Cell.o ∧
    (check_winner doubleWinBoard).1 = some Cell.x ∧
    ¬ ((check_winner doubleWinBoard).1 = some Cell.o ↔
        hasWinLine doubleWinBoard Cell.o) := by decide

/-- C6 (amended): on every board on which no two distinct marks both
hold complete lines, check_winner reports a win for a mark exactly when
that mark holds one of the 3 rows, 3 columns or 2 diagonals; reports a
draw exactly when no mark holds a line and the board is full; and
otherwise reports in-progress. -/
theorem c6_check_winner_characterization (b : Board)
    (huniq : ∀ m n : Cell, hasWinLine b m → hasWinLine b n → m = n) :
    (∀ m : Cell, (check_winner b).1 = some m ↔ hasWinLine b m) ∧
    (check_winner b = (none, true) ↔
      (¬ ∃ m : Cell, hasWinLine b m) ∧ boardFullSpec b) ∧
    (check_winner b = (none, false) ↔
      (¬ ∃ m : Cell, hasWinLine b m) ∧ ¬ boardFullSpec b) := by
  refine ⟨?_, ?_, ?_⟩
  · intro m
    constructor
    · intro hm
      exact findWin_some_hasWinLine b m (by rw [← check_winner_fst]; exact hm)
    · intro hm
      cases hfw : findWin (gameLines b) with
      | none => exact absurd hm (findWin_none_not_hasWinLine b m hfw)
      | some m2 =>
        have h2 := findWin_some_hasWinLine b m2 hfw
        rw [check_winner_fst, hfw, huniq m2 m h2 hm]
  · constructor
    · intro hd
      have h1 : (check_winner b).1 = none := by rw [hd]
      rw [check_winner_fst] at h1
      refine ⟨fun hex => ?_, ?_⟩
      · obtain ⟨m, hm⟩ := hex
        exact findWin_none_not_hasWinLine b m h1 hm
      · simp only [check_winner, h1] at hd
        by_cases hocc : boardAllOccupied b = true
        · exact (boardAllOccupied_iff b).mp hocc
        · simp only [Bool.not_eq_true] at hocc
          rw [hocc] at hd
          simp at hd
    · rintro ⟨hno, hfull⟩
      have h1 : findWin (gameLines b) = none := by
        cases hfw : findWin (gameLines b) with
        | none => rfl
        | some m => exact absurd ⟨m, findWin_some_hasWinLine b m hfw⟩ hno
      simp only [check_winner, h1]
      rw [if_pos ((boardAllOccupied_iff b).mpr hfull)]
  · constructor
    · intro hd
      have h1 : (check_winner b).1 = none := by rw [hd]
      rw [check_winner_fst] at h1
      refine ⟨fun hex => ?_, ?_⟩
      · obtain ⟨m, hm⟩ := hex
        exact findWin_none_not_hasWinLine b m h1 hm
      · simp only [check_winner, h1] at hd
        intro hfull
        rw [if_pos ((boardAllOccupied_iff b).mpr hfull)] at hd
        simp at hd
    · rintro ⟨hno, hnfull⟩
      have h1 : findWin (gameLines b) = none := by
        cases hfw : findWin (gameLines b) with
        | none => rfl
        | some m => exact absurd ⟨m, findWin_some_hasWinLine b m hfw⟩ hno
      simp only [check_winner, h1]
      rw [if_neg (fun hocc => hnfull ((boardAllOccupied_iff b).mp hocc))]

/-- Witness for C6 (amended) on the empty board: no mark holds a line,
the board is not full, and check_winner reports in-progress. -/
theorem c6_check_winner_characterization_witness :
    (∀ m n : Cell, hasWinLine emptyBoard m → hasWinLine emptyBoard n → m = n) ∧
    ((∀ m : Cell, (check_winner emptyBoard).1 = some m ↔ hasWinLine emptyBoard m) ∧
     (check_winner emptyBoard = (none, true) ↔
       (¬ ∃ m : Cell, hasWinLine emptyBoard m) ∧ boardFullSpec emptyBoard) ∧
     (check_winner emptyBoard = (none, false) ↔
       (¬ ∃ m : Cell, hasWinLine emptyBoard m) ∧ ¬ boardFullSpec emptyBoard)) :=
  ⟨by decide, c6_check_winner_characterization emptyBoard (by decide)⟩

/-- C8: check_winner is symmetric under swapping the two marks on the
whole board: the finished flag is unchanged and the reported winner is
the swapped mark. -/
theorem c8_check_winner_swap_symmetric (b : Board) :
    check_winner (swapBoard b) =
      (((check_winner b).1).map swapCell, (check_winner b).2) := by
  have h1 := findWin_swap b
  unfold check_winner
  cases h : findWin (gameLines b)
  · rw [h] at h1
    simp only [h1, h, boardAllOccupied_swap]
    cases hf : boardAllOccupied b <;> rfl
  · rw [h] at h1
    simp only [h1, h]
    rfl

/-- C9: an accepted move keeps the room id and the player list, writes
the mover's mark into the (previously empty) target cell, changes no
other cell, and appends exactly the entry (mover, row, col) at the end
of the move log. -/
theorem c9_accepted_move_frame (g : GameRoom) (u : String) (r c : Int)
    (h : ((make_move g u r c).2).isOk = true) :
    (make_move g u r c).1.room_id = g.room_id ∧
    (make_move g u r c).1.players = g.players ∧
    boardGet g.board r.toNat c.toNat = Cell.empty ∧
    boardGet (make_move g u r c).1.board r.toNat c.toNat =
      (if u = (g.players.headD defaultUser).username then Cell.x else Cell.o) ∧
    (∀ i j : Fin 3, ¬ (i.val = r.toNat ∧ j.val = c.toNat) →
      (make_move g u r c).1.board i j = g.board i j) ∧
    (make_move g u r c).1.moves =
      g.moves ++ [{ player := u, row := r, col := c }] := by
  obtain ⟨hf, ht, hb, ho⟩ := make_move_ok_conditions g u r c h
  have hr3 : r.toNat < 3 := by omega
  have hc3 : c.toNat < 3 := by omega
  cases hcw : (check_winner (boardSet g.board r.toNat c.toNat
      (if u = (g.players.headD defaultUser).username then Cell.x else Cell.o))).2
  · rw [make_move_apply_continue g u r c hf ht hb ho hcw]
    exact ⟨rfl, rfl, ho, boardGet_boardSet_self _ _ _ _ hr3 hc3,
      fun i j hij => boardSet_ne _ _ _ _ i j hij, rfl⟩
  · rw [make_move_apply_finished g u r c hf ht hb ho hcw]
    exact ⟨rfl, rfl, ho, boardGet_boardSet_self _ _ _ _ hr3 hc3,
      fun i j hij => boardSet_ne _ _ _ _ i j hij, rfl⟩

/-- Witness for C9: alice's accepted opening move at (0,0) in the
two-player room. -/
theorem c9_accepted_move_frame_witness :
    (make_move g1 "alice" 0 0).1.room_id = g1.room_id ∧
    (make_move g1 "alice" 0 0).1.players = g1.players ∧
    boardGet g1.board (0 : Int).toNat (0 : Int).toNat = Cell.empty ∧
    boardGet (make_move g1 "alice" 0 0).1.board (0 : Int).toNat (0 : Int).toNat =
      (if "alice" = (g1.players.headD defaultUser).username
       then Cell.x else Cell.o) ∧
    (∀ i j : Fin 3, ¬ (i.val = (0 : Int).toNat ∧ j.val = (0 : Int).toNat) →
      (make_move g1 "alice" 0 0).1.board i j = g1.board i j) ∧
    (make_move g1 "alice" 0 0).1.moves =
      g1.moves ++ [{ player := "alice", row := 0, col := 0 }] :=
  c9_accepted_move_frame g1 "alice" 0 0 (by decide)

/-- C10: check_winner is a total function of the 3x3 board — in this
embedding it is a total Lean function, defined on every board including
contract-violating ones — and its winner component always equals the
mark of the first winning line in the fixed scan order row 0, column 0,
row 1, column 1, row 2, column 2, main diagonal, anti-diagonal
(specFirstWin, written from the claim). -/
theorem c10_check_winner_first_line_scan_order (b : Board) :
    (check_winner b).1 = specFirstWin b := by
  rw [check_winner_fst, findWin_gameLines, specFirstWin_eq]
